import Mathlib

/-!
Shallow embedding of the physarum simulation engine (src/src/model.rs and
src/src/main.rs) for checking the natural-language specification against the
code.  Conventions:

* `f32` arithmetic is modelled exactly over `ℚ`.  The transcendental `f32`
  operations (`cos`, `sin`, and `powf(1.0 / 2.2)`), whose exact values no
  claim depends on, are modelled as explicit function parameters `rcos rsin :
  ℚ → ℚ` (respectively a function `gammaCorrect` that is exact at the clamp
  endpoints 0 and 1, the only points at which a theorem evaluates it).
* Randomness (`rand::thread_rng`) is modelled by explicit streams of values
  passed as parameters: a stream of triples in [0, 1) for agent creation, a
  stream of table entries for the normal draws filling the attraction table,
  a stream of configurations for `Grid::new`, and boolean coin streams for
  the steering tie-break (`[-1.0, 1.0].choose(rng)`).
* The crate modules `grid`, `util`, `palette` and `imgdata` are used by
  src/src/model.rs but their files are not under src/; every definition
  standing for them carries a doc comment starting `Modelled from the spec:`
  and follows the wording of spec.md.
-/

namespace Physarum

/-- The `f32` value of `std::f32::consts::TAU` (the nearest `f32` to 2π,
equal to 13176795 / 2097152). -/
def TAU : ℚ := 13176795 / 2097152

/-- Modelled from the spec: `crate::util::wrap` (src/util.rs is not in the
repository excerpt).  Per spec section 4.3 and the glossary, wrapping is
toroidal modulo arithmetic sending any value into [0, m): the canonical
representative `v - m * floor (v / m)`. -/
def wrap (v m : ℚ) : ℚ := v - m * (⌊v / m⌋ : ℤ)

/-- Modelled from the spec: the per-population behaviour record
`grid::PopulationConfig` (src/grid.rs is not in the repository excerpt).
Spec section 3 lists its fields: sensor distance, sensor half-angle,
rotation step, movement step distance, deposition amount, decay factor. -/
structure PopulationConfig where
  sensor_distance : ℚ
  sensor_angle : ℚ
  rotation_angle : ℚ
  step_distance : ℚ
  deposition_amount : ℚ
  decay_factor : ℚ

def defaultConfig : PopulationConfig := ⟨0, 0, 0, 0, 0, 0⟩

/-- Modelled from the spec: `grid::Grid` (src/grid.rs is not in the
repository excerpt).  Spec section 3: dimensions, a primary trail field
(`data`, the name `Grid::data()` uses in src/src/model.rs), a read buffer
holding the combined sensing surface, and a per-population config.  A field
maps the cell index `y * width + x` to its trail intensity. -/
structure Grid where
  width : ℕ
  height : ℕ
  data : ℕ → ℚ
  buf : ℕ → ℚ
  config : PopulationConfig

def defaultGrid : Grid :=
  { width := 0, height := 0, data := fun _ => 0, buf := fun _ => 0,
    config := defaultConfig }

/-- Modelled from the spec: `Grid::new(width, height, rng)` (src/grid.rs is
not in the repository excerpt): fresh zero fields and a randomized
configuration, here taken from the explicit stream. -/
def Grid.new (width height : ℕ) (cfg : PopulationConfig) : Grid :=
  { width, height, data := fun _ => 0, buf := fun _ => 0, config := cfg }

/-- Cell index of the integer coordinates `(cx, cy)` wrapped toroidally onto
the grid (both axes wrapped modulo the dimensions). -/
def Grid.cellIndex (g : Grid) (cx cy : ℤ) : ℕ :=
  (cy % (g.height : ℤ)).toNat * g.width + (cx % (g.width : ℤ)).toNat

/-- Modelled from the spec: `Grid::get_buf(x, y)` (src/grid.rs is not in the
repository excerpt).  Spec section 4.1 `sample`: bilinear interpolation of
the read buffer at continuous coordinates, with both axes wrapped modulo
`width`/`height`.  The definition reads only `buf`, `width` and `height` of
the grid, never `data`. -/
def Grid.get_buf (g : Grid) (x y : ℚ) : ℚ :=
  let wx := wrap x (g.width : ℚ)
  let wy := wrap y (g.height : ℚ)
  let x0 : ℤ := ⌊wx⌋
  let y0 : ℤ := ⌊wy⌋
  let fx : ℚ := wx - (x0 : ℚ)
  let fy : ℚ := wy - (y0 : ℚ)
  (1 - fx) * (1 - fy) * g.buf (g.cellIndex x0 y0)
    + fx * (1 - fy) * g.buf (g.cellIndex (x0 + 1) y0)
    + (1 - fx) * fy * g.buf (g.cellIndex x0 (y0 + 1))
    + fx * fy * g.buf (g.cellIndex (x0 + 1) (y0 + 1))

/-- Modelled from the spec: `Grid::deposit(x, y)` (src/grid.rs is not in the
repository excerpt).  Spec section 4.1: adds the fixed deposition amount to
the primary-field cell nearest the wrapped continuous coordinate (rounding
to the nearest integer cell, re-wrapped). -/
def Grid.deposit (g : Grid) (x y : ℚ) : Grid :=
  let i := g.cellIndex ⌊wrap x (g.width : ℚ) + 1/2⌋ ⌊wrap y (g.height : ℚ) + 1/2⌋
  { g with data := fun c => if c = i then g.data c + g.config.deposition_amount else g.data c }

/-- Modelled from the spec: `Grid::diffuse(diffusivity)` (src/grid.rs is not
in the repository excerpt).  Spec section 4.1: each cell becomes the average
of its toroidal neighbourhood of kernel radius `diffusivity` (diffusivity 0
degenerates to a no-op aside from decay), then the multiplicative decay
factor from the config is applied. -/
def Grid.diffuse (g : Grid) (diffusivity : ℕ) : Grid :=
  let k := 2 * diffusivity + 1
  let count : ℚ := (k : ℚ) ^ 2
  { g with data := fun c =>
      let cx : ℤ := ((c % g.width : ℕ) : ℤ)
      let cy : ℤ := ((c / g.width : ℕ) : ℤ)
      g.config.decay_factor *
        (((List.range k).map (fun dy =>
            ((List.range k).map (fun dx =>
              g.data (g.cellIndex (cx - diffusivity + dx) (cy - diffusivity + dy)))).sum)).sum
          / count) }

/-- The primary-field values of every cell of the grid, in cell-index order
(what `Grid::data()` exposes to the renderer in src/src/model.rs). -/
def Grid.cells (g : Grid) : List ℚ := (List.range (g.width * g.height)).map g.data

/-- Modelled from the spec: `Grid::quantile(q)` (src/grid.rs is not in the
repository excerpt).  Spec section 4.1: the value at the q-th quantile of
the primary-field value distribution, with `quantile 0` the minimum and
`quantile 1` the maximum: the sorted field sampled at index
`floor (q * (cellCount - 1))`. -/
def Grid.quantile (g : Grid) (q : ℚ) : ℚ :=
  let sorted := g.cells.insertionSort (· ≤ ·)
  sorted.getD (Int.toNat ⌊q * ((g.width * g.height : ℕ) - 1 : ℚ)⌋) 0

/-- Modelled from the spec: `grid::combine(grids, attraction_table)`
(src/grid.rs is not in the repository excerpt).  Spec section 4.2: for every
population i, recompute the read buffer of grid i as the elementwise sum
over j of `attraction_table[i][j] * grids[j].primary_field`. -/
def combine (grids : List Grid) (attraction_table : List (List ℚ)) : List Grid :=
  (List.range grids.length).map (fun i =>
    let g := grids.getD i defaultGrid
    { g with buf := fun cell =>
        ((List.range grids.length).map (fun j =>
          (attraction_table.getD i []).getD j 0
            * (grids.getD j defaultGrid).data cell)).sum })

/-- Embeds `Agent` (src/src/model.rs lines 25-31): continuous position,
heading angle and the owning population index. -/
structure Agent where
  x : ℚ
  y : ℚ
  angle : ℚ
  population_id : ℕ

/-- Embeds `Agent::new` (src/src/model.rs lines 35-43): the rng yields a
triple of `f32` values in [0, 1) (the `Standard` distribution), scaled to a
position inside the grid and an angle in [0, TAU). -/
def Agent.new (width height : ℕ) (id : ℕ) (r : ℚ × ℚ × ℚ) : Agent :=
  { x := r.1 * (width : ℚ), y := r.2.1 * (height : ℚ), angle := r.2.2 * TAU,
    population_id := id }

/-- Embeds `Agent::rotate_and_move` (src/src/model.rs lines 46-59): the new
angle is wrapped modulo TAU, then the position is advanced by
`step_distance` along the new heading and wrapped modulo the dimensions.
`rcos` and `rsin` stand for the `f32` cosine and sine. -/
def Agent.rotate_and_move (rcos rsin : ℚ → ℚ) (a : Agent)
    (direction rotation_angle step_distance : ℚ) (width height : ℕ) : Agent :=
  let delta_angle := rotation_angle * direction
  let angle := wrap (a.angle + delta_angle) TAU
  { a with
    angle := angle,
    x := wrap (a.x + step_distance * rcos angle) (width : ℚ),
    y := wrap (a.y + step_distance * rsin angle) (height : ℚ) }

/-- Modelled from the spec: `palette::Palette` (src/palette.rs is not in the
repository excerpt): one RGB colour per population. -/
structure Palette where
  colors : List (ℕ × ℕ × ℕ)

/-- Modelled from the spec: `imgdata::ImgData` (src/imgdata.rs is not in the
repository excerpt): an owned snapshot of the grids plus the palette and the
iteration index, buffered for deferred rendering. -/
structure ImgData where
  grids : List Grid
  palette : Palette
  iteration : ℤ

/-- Embeds `Model` (src/src/model.rs lines 63-83). -/
structure Model where
  agents : List Agent
  grids : List Grid
  attraction_table : List (List ℚ)
  diffusivity : ℕ
  iteration : ℤ
  palette : Palette
  img_data_vec : List ImgData

/-- The largest value of the 64-bit `usize`: an `f32`/`f64` to integer `as`
cast in Rust saturates at this bound. -/
def USIZE_MAX : ℕ := 2 ^ 64 - 1

/-- Embeds `(n_particles as f64 / n_populations as f64).ceil() as usize`
(src/src/model.rs line 106).  For positive `n_populations` the `f64`
division and ceiling are exact at every realistic magnitude and give the
integer ceiling `(p + n - 1) / n`; for `n_populations = 0` the division
yields infinity (or NaN when `n_particles = 0` too) and the saturating `as
usize` cast yields `USIZE_MAX` (respectively 0). -/
def particlesPerGrid (n_particles n_populations : ℕ) : ℕ :=
  if n_populations = 0 then (if n_particles = 0 then 0 else USIZE_MAX)
  else (n_particles + n_populations - 1) / n_populations

/-- Embeds `Model::new` (src/src/model.rs lines 99-141).  The rng draws are
modelled by the explicit streams: `agentRand i` is the triple drawn by agent
i, `tableRand i j` the normal draw filling attraction_table[i][j] (the code
draws the diagonal from the attraction distribution and the off-diagonal
from the repulsion distribution; both are arbitrary rationals here),
`configRand k` the configuration drawn by `Grid::new` for population k, and
`palette` the `random_palette()` result. -/
def Model.new (width height n_particles n_populations diffusivity : ℕ)
    (agentRand : ℕ → ℚ × ℚ × ℚ) (tableRand : ℕ → ℕ → ℚ)
    (configRand : ℕ → PopulationConfig) (palette : Palette) : Model :=
  let particles_per_grid := particlesPerGrid n_particles n_populations
  let n_particles := particles_per_grid * n_populations
  { agents := (List.range n_particles).map
      (fun i => Agent.new width height (i / particles_per_grid) (agentRand i)),
    grids := (List.range n_populations).map
      (fun k => Grid.new width height (configRand k)),
    attraction_table := (List.range n_populations).map (fun i =>
      (List.range n_populations).map (fun j => tableRand i j)),
    diffusivity := diffusivity, iteration := 0, palette := palette,
    img_data_vec := [] }

/-- Embeds `Model::pick_direction` (src/src/model.rs lines 143-154).  The
call `[-1.0, 1.0].choose(rng).unwrap()` picks one of the two elements
uniformly; `coin` true selects -1, false selects 1. -/
def Model.pick_direction (center left right : ℚ) (coin : Bool) : ℚ :=
  if center > left ∧ center > right then 0
  else if center < left ∧ center < right then (if coin then -1 else 1)
  else if left < right then 1
  else if right < left then -1
  else 0

/-- Embeds the per-agent closure of the sense+steer phase of `Model::step`
(src/src/model.rs lines 166-198): read the config and dimensions of the
population grid of the agent, compute the three probe points, sample each
from the read buffer via `get_buf`, pick a direction and rotate and move. -/
def Model.agentTick (rcos rsin : ℚ → ℚ) (grids : List Grid) (coin : Bool)
    (agent : Agent) : Agent :=
  let grid := grids.getD agent.population_id defaultGrid
  let sensor_distance := grid.config.sensor_distance
  let sensor_angle := grid.config.sensor_angle
  let rotation_angle := grid.config.rotation_angle
  let step_distance := grid.config.step_distance
  let width := grid.width
  let height := grid.height
  let xc := agent.x + rcos agent.angle * sensor_distance
  let yc := agent.y + rsin agent.angle * sensor_distance
  let agent_add_sens := agent.angle + sensor_angle
  let agent_sub_sens := agent.angle - sensor_angle
  let xl := agent.x + rcos agent_sub_sens * sensor_distance
  let yl := agent.y + rsin agent_sub_sens * sensor_distance
  let xr := agent.x + rcos agent_add_sens * sensor_distance
  let yr := agent.y + rsin agent_add_sens * sensor_distance
  let trail_c := grid.get_buf xc yc
  let trail_l := grid.get_buf xl yl
  let trail_r := grid.get_buf xr yr
  let direction := Model.pick_direction trail_c trail_l trail_r coin
  agent.rotate_and_move rcos rsin direction rotation_angle step_distance width height

/-- Phase 2 of `Model::step` as a standalone function: the parallel
`par_iter_mut` over agents, each updated independently from the read buffers
(`coins i` is the tie-break coin of the rng of the thread running agent i). -/
def sensePhase (rcos rsin : ℚ → ℚ) (coins : ℕ → Bool) (grids : List Grid)
    (agents : List Agent) : List Agent :=
  agents.enum.map (fun p => Model.agentTick rcos rsin grids (coins p.1) p.2)

/-- Phase 3 of `Model::step` as a standalone function: the sequential
deposit loop, each agent adding trail into the primary field of the grid of
its own population. -/
def depositPhase (agents : List Agent) (grids : List Grid) : List Grid :=
  agents.foldl (fun gs a =>
    gs.set a.population_id ((gs.getD a.population_id defaultGrid).deposit a.x a.y)) grids

/-- Phase 4 of `Model::step` as a standalone function: every grid blurred
and decayed independently. -/
def diffusePhase (diffusivity : ℕ) (grids : List Grid) : List Grid :=
  grids.map (fun g => g.diffuse diffusivity)

/-- Embeds `Model::step` (src/src/model.rs lines 157-227), written out in
the order of the Rust body: combine, the parallel agent tick, the deposit
loop, diffuse+decay, then `save_image_data` (pushing an owned snapshot) and
the iteration increment.  The timing and progress printing has no effect on
the state and is omitted. -/
def Model.step (rcos rsin : ℚ → ℚ) (coins : ℕ → Bool) (m : Model) : Model :=
  let grids := combine m.grids m.attraction_table
  let agents := m.agents.enum.map (fun p =>
    Model.agentTick rcos rsin grids (coins p.1) p.2)
  let grids := agents.foldl (fun gs a =>
    gs.set a.population_id ((gs.getD a.population_id defaultGrid).deposit a.x a.y)) grids
  let grids := grids.map (fun g => g.diffuse m.diffusivity)
  { agents := agents, grids := grids,
    attraction_table := m.attraction_table, diffusivity := m.diffusivity,
    iteration := m.iteration + 1, palette := m.palette,
    img_data_vec := m.img_data_vec
      ++ [{ grids := grids, palette := m.palette, iteration := m.iteration }] }

/-- Runs `Model::step` n times; `coins k` is the coin stream of iteration k
(the code draws fresh `thread_rng` state every iteration). -/
def Model.stepN (rcos rsin : ℚ → ℚ) (coins : ℕ → ℕ → Bool) : ℕ → Model → Model
  | 0, m => m
  | n + 1, m => Model.step rcos rsin (coins n) (Model.stepN rcos rsin coins n m)

/-- The identity attraction table of size n (spec section 8, combine
identity). -/
def identityTable (n : ℕ) : List (List ℚ) :=
  (List.range n).map (fun i => (List.range n).map (fun j => if i = j then 1 else 0))

/-- The agent lies inside the toroidal bounds: position inside the grid and
heading in [0, TAU). -/
def agentInRange (w h : ℕ) (a : Agent) : Prop :=
  0 ≤ a.x ∧ a.x < (w : ℚ) ∧ 0 ≤ a.y ∧ a.y < (h : ℚ) ∧ 0 ≤ a.angle ∧ a.angle < TAU

/-- Every agent of the list lies inside the toroidal bounds. -/
def allInRange (w h : ℕ) (l : List Agent) : Prop := ∀ a ∈ l, agentInRange w h a

/-- Every grid of the list has the given dimensions. -/
def gridsDims (w h : ℕ) (gs : List Grid) : Prop := ∀ g ∈ gs, g.width = w ∧ g.height = h

/-- The structural invariant `Model::new` establishes and `Model::step`
preserves: the grid count, the shared grid dimensions, and every agent
owning a population index below the grid count. -/
def ModelGood (w h npop : ℕ) (m : Model) : Prop :=
  m.grids.length = npop ∧ gridsDims w h m.grids
    ∧ ∀ a ∈ m.agents, a.population_id < npop

/-- Every agent of the model indexes `grids` in bounds. -/
def pidsInBounds (m : Model) : Prop :=
  ∀ a ∈ m.agents, a.population_id < m.grids.length

/-- The number of agents of the list owned by population k. -/
def populationCount (agents : List Agent) (k : ℕ) : ℕ :=
  agents.countP (fun a => a.population_id == k)

/-- The agents split evenly: every population below npop owns exactly ppg
agents. -/
def evenSplit (npop ppg : ℕ) (agents : List Agent) : Prop :=
  ∀ k < npop, populationCount agents k = ppg

/-- Every row of the table has length n. -/
def rowsLen (n : ℕ) (t : List (List ℚ)) : Prop := ∀ row ∈ t, row.length = n

/-- Embeds the directory-ensuring prologue of `Model::render_all_imgdata`
(src/src/model.rs lines 240-242).  The Rust reads
`if not Path::new("./tmp").exists() { std::fs::create_dir("./tmp"); }`:
the guard `not expr` is not legal Rust syntax (the crate as committed does
not compile; the evident intent is the negation operator), and the `Result`
of `create_dir` is discarded, so execution continues regardless of the
outcome.  The filesystem is modelled by whether ./tmp exists and by the
outcome `create_dir` would return (an OS error code on failure); the
returned value is what the function surfaces to its caller. -/
def ensureTmpDir (tmp_exists : Bool) (create_dir : Unit → Except ℕ Unit) :
    Except ℕ Unit :=
  if !tmp_exists then
    let _ := create_dir ()
    Except.ok ()
  else Except.ok ()

/-- The clamp of `f32::clamp(v, lo, hi)`. -/
def clampQ (v lo hi : ℚ) : ℚ := max lo (min v hi)

/-- The cast `v as u8` applied to an `f32` already clamped to [0, 255]:
truncation toward zero. -/
def toU8 (v : ℚ) : ℕ := (⌊v⌋).toNat

/-- Models the gamma correction `t.powf(1.0 / 2.2)` of src/src/model.rs line
280.  IEEE `powf` is exact at the clamp endpoints (`powf 0 a = 0` and
`powf 1 a = 1` for positive finite `a`), and no theorem of this file
evaluates the model anywhere else; between the endpoints the model is an
unspecified stand-in. -/
def gammaCorrect (t : ℚ) : ℚ := if t ≤ 0 then 0 else if 1 ≤ t then 1 else t

/-- The `itertools::multizip` of three lists: truncating zip. -/
def zip3 {α β γ : Type _} : List α → List β → List γ → List (α × β × γ)
  | a :: as, b :: bs, c :: cs => (a, b, c) :: zip3 as bs cs
  | _, _, _ => []

/-- Embeds the `max_values` vector of `Model::save_to_image`
(src/src/model.rs lines 267-271): one `quantile(0.999) * 1.5` per grid. -/
def maxValues (grids : List Grid) : List ℚ :=
  grids.map (fun grid => grid.quantile (999 / 1000) * (3 / 2))

/-- Embeds the per-pixel body of `Model::save_to_image` (src/src/model.rs
lines 273-289), parametric in the gamma-correction function `gf` standing
for `powf(1.0 / 2.2)`: for every population, the cell value is divided by
that population's max value, clamped to [0, 1], gamma corrected and
accumulated into the RGB channels weighted by the palette colour of the
population; each channel is then clamped to [0, 255] and cast to u8. -/
def savePixel (gf : ℚ → ℚ) (imgdata : ImgData) (x y : ℕ) : ℕ × ℕ × ℕ :=
  let width := (imgdata.grids.getD 0 defaultGrid).width
  let i := y * width + x
  let rgb := (zip3 imgdata.grids (maxValues imgdata.grids) imgdata.palette.colors).foldl
    (fun (acc : ℚ × ℚ × ℚ) z =>
      let t := gf (clampQ (z.1.data i / z.2.1) 0 1)
      (acc.1 + (z.2.2.1 : ℚ) * t, acc.2.1 + (z.2.2.2.1 : ℚ) * t,
        acc.2.2 + (z.2.2.2.2 : ℚ) * t))
    (0, 0, 0)
  (toU8 (clampQ rgb.1 0 255), toU8 (clampQ rgb.2.1 0 255), toU8 (clampQ rgb.2.2 0 255))

/-- The pixel intensity the spec prescribes for single-population mode
(spec section 6, written from the words of the spec for comparison with the
code): `clamp(value / quantile(0.999), 0, 1) * 255` as the grayscale
byte. -/
def specGrayIntensity (value q999 : ℚ) : ℕ := toU8 (clampQ (value / q999) 0 1 * 255)

/-- A concrete single-population grid: 5 by 1 cells holding [2, 2, 2, 2, 9],
so its 0.999 quantile is 2 and the cell holding 9 saturates the clamp of the
code (9 / (2 * 1.5) = 3, clamped to 1, where IEEE powf is exact). -/
def cexGrid : Grid :=
  { width := 5, height := 1, data := fun i => if i = 4 then 9 else 2,
    buf := fun _ => 0, config := defaultConfig }

/-- A concrete single-population ImgData over `cexGrid` whose palette colour
is (100, 50, 25). -/
def cexImgData : ImgData :=
  { grids := [cexGrid], palette := ⟨[(100, 50, 25)]⟩, iteration := 0 }

lemma TAU_pos : (0 : ℚ) < TAU := by norm_num [TAU]

lemma wrap_eq_fract (v m : ℚ) (hm : m ≠ 0) : wrap v m = m * Int.fract (v / m) := by
  unfold wrap Int.fract
  rw [mul_sub, mul_comm m (v / m), div_mul_cancel₀ v hm]

lemma wrap_nonneg (v m : ℚ) (hm : 0 < m) : 0 ≤ wrap v m := by
  rw [wrap_eq_fract v m hm.ne']
  exact mul_nonneg hm.le (Int.fract_nonneg _)

lemma wrap_lt (v m : ℚ) (hm : 0 < m) : wrap v m < m := by
  rw [wrap_eq_fract v m hm.ne']
  calc m * Int.fract (v / m) < m * 1 :=
        mul_lt_mul_of_pos_left (Int.fract_lt_one _) hm
    _ = m := mul_one m

lemma rotate_and_move_inRange (rcos rsin : ℚ → ℚ) (a : Agent)
    (direction rotation_angle step_distance : ℚ) {w h : ℕ}
    (hw : 0 < w) (hh : 0 < h) :
    agentInRange w h
      (a.rotate_and_move rcos rsin direction rotation_angle step_distance w h) := by
  have hwq : (0 : ℚ) < (w : ℚ) := by exact_mod_cast hw
  have hhq : (0 : ℚ) < (h : ℚ) := by exact_mod_cast hh
  exact ⟨wrap_nonneg _ _ hwq, wrap_lt _ _ hwq, wrap_nonneg _ _ hhq, wrap_lt _ _ hhq,
    wrap_nonneg _ _ TAU_pos, wrap_lt _ _ TAU_pos⟩

lemma rotate_and_move_population_id (rcos rsin : ℚ → ℚ) (a : Agent)
    (direction rotation_angle step_distance : ℚ) (w h : ℕ) :
    (a.rotate_and_move rcos rsin direction rotation_angle step_distance w h).population_id
      = a.population_id := rfl

lemma agentTick_population_id (rcos rsin : ℚ → ℚ) (grids : List Grid) (coin : Bool)
    (a : Agent) :
    (Model.agentTick rcos rsin grids coin a).population_id = a.population_id := rfl

lemma getD_range_map {α : Type _} (n i : ℕ) (f : ℕ → α) (d : α) (hi : i < n) :
    ((List.range n).map f).getD i d = f i := by
  rw [List.getD_eq_getElem _ _ (by simpa using hi)]
  simp

lemma getD_mem_of_lt {α : Type _} {l : List α} {i : ℕ} (d : α) (hi : i < l.length) :
    l.getD i d ∈ l := by
  rw [List.getD_eq_getElem _ _ hi]
  exact List.getElem_mem hi

lemma step_agents_eq (rcos rsin : ℚ → ℚ) (coins : ℕ → Bool) (m : Model) :
    (Model.step rcos rsin coins m).agents
      = sensePhase rcos rsin coins (combine m.grids m.attraction_table) m.agents := rfl

lemma step_grids_eq (rcos rsin : ℚ → ℚ) (coins : ℕ → Bool) (m : Model) :
    (Model.step rcos rsin coins m).grids
      = diffusePhase m.diffusivity
          (depositPhase
            (sensePhase rcos rsin coins (combine m.grids m.attraction_table) m.agents)
            (combine m.grids m.attraction_table)) := rfl

lemma stepN_succ (rcos rsin : ℚ → ℚ) (coins : ℕ → ℕ → Bool) (n : ℕ) (m : Model) :
    Model.stepN rcos rsin coins (n + 1) m
      = Model.step rcos rsin (coins n) (Model.stepN rcos rsin coins n m) := rfl

lemma new_agents_eq (w h p npop d : ℕ) (ar : ℕ → ℚ × ℚ × ℚ) (tr : ℕ → ℕ → ℚ)
    (cr : ℕ → PopulationConfig) (pal : Palette) :
    (Model.new w h p npop d ar tr cr pal).agents
      = (List.range (particlesPerGrid p npop * npop)).map
          (fun i => Agent.new w h (i / particlesPerGrid p npop) (ar i)) := rfl

lemma new_grids_eq (w h p npop d : ℕ) (ar : ℕ → ℚ × ℚ × ℚ) (tr : ℕ → ℕ → ℚ)
    (cr : ℕ → PopulationConfig) (pal : Palette) :
    (Model.new w h p npop d ar tr cr pal).grids
      = (List.range npop).map (fun k => Grid.new w h (cr k)) := rfl

lemma combine_length (gs : List Grid) (t : List (List ℚ)) :
    (combine gs t).length = gs.length := by simp [combine]

lemma combine_dims {w h : ℕ} {gs : List Grid} (t : List (List ℚ))
    (hd : gridsDims w h gs) : gridsDims w h (combine gs t) := by
  intro g hg
  unfold combine at hg
  rcases List.mem_map.mp hg with ⟨i, hi, rfl⟩
  exact hd (gs.getD i defaultGrid) (getD_mem_of_lt defaultGrid (List.mem_range.mp hi))

lemma depositPhase_cons (a : Agent) (as : List Agent) (gs : List Grid) :
    depositPhase (a :: as) gs
      = depositPhase as
          (gs.set a.population_id
            ((gs.getD a.population_id defaultGrid).deposit a.x a.y)) := rfl

lemma depositPhase_length (agents : List Agent) (gs : List Grid) :
    (depositPhase agents gs).length = gs.length := by
  induction agents generalizing gs with
  | nil => rfl
  | cons a as ih => rw [depositPhase_cons, ih, List.length_set]

lemma depositPhase_dims {w h : ℕ} (agents : List Agent) {gs : List Grid}
    (hd : gridsDims w h gs) : gridsDims w h (depositPhase agents gs) := by
  induction agents generalizing gs with
  | nil => exact hd
  | cons a as ih =>
      rw [depositPhase_cons]
      apply ih
      intro g hg
      rcases Nat.lt_or_ge a.population_id gs.length with hi | hi
      · rcases List.mem_or_eq_of_mem_set hg with hmem | rfl
        · exact hd _ hmem
        · exact hd (gs.getD a.population_id defaultGrid) (getD_mem_of_lt defaultGrid hi)
      · rw [List.set_eq_of_length_le hi] at hg
        exact hd _ hg

lemma diffusePhase_length (d : ℕ) (gs : List Grid) :
    (diffusePhase d gs).length = gs.length := by simp [diffusePhase]

lemma diffusePhase_dims {w h : ℕ} (d : ℕ) {gs : List Grid} (hd : gridsDims w h gs) :
    gridsDims w h (diffusePhase d gs) := by
  intro g hg
  rcases List.mem_map.mp hg with ⟨g0, hg0, rfl⟩
  exact hd g0 hg0

lemma sensePhase_map_population_id (rcos rsin : ℚ → ℚ) (coins : ℕ → Bool)
    (gs : List Grid) (agents : List Agent) :
    (sensePhase rcos rsin coins gs agents).map Agent.population_id
      = agents.map Agent.population_id := by
  unfold sensePhase
  rw [List.map_map]
  have h : (Agent.population_id ∘ fun p : ℕ × Agent =>
      Model.agentTick rcos rsin gs (coins p.1) p.2) = Agent.population_id ∘ Prod.snd := by
    funext p
    exact agentTick_population_id rcos rsin gs (coins p.1) p.2
  rw [h, ← List.map_map, List.enum_map_snd]

lemma sensePhase_pids {npop : ℕ} (rcos rsin : ℚ → ℚ) (coins : ℕ → Bool)
    (gs : List Grid) {agents : List Agent}
    (hp : ∀ a ∈ agents, a.population_id < npop) :
    ∀ a ∈ sensePhase rcos rsin coins gs agents, a.population_id < npop := by
  intro a ha
  have hmem : a.population_id
      ∈ (sensePhase rcos rsin coins gs agents).map Agent.population_id :=
    List.mem_map_of_mem _ ha
  rw [sensePhase_map_population_id] at hmem
  rcases List.mem_map.mp hmem with ⟨b, hb, he⟩
  rw [← he]
  exact hp b hb

lemma ModelGood_step {w h npop : ℕ} {m : Model} (rcos rsin : ℚ → ℚ)
    (coins : ℕ → Bool) (hg : ModelGood w h npop m) :
    ModelGood w h npop (Model.step rcos rsin coins m) := by
  obtain ⟨hlen, hdims, hpids⟩ := hg
  refine ⟨?_, ?_, ?_⟩
  · rw [step_grids_eq, diffusePhase_length, depositPhase_length, combine_length, hlen]
  · rw [step_grids_eq]
    exact diffusePhase_dims _ (depositPhase_dims _ (combine_dims _ hdims))
  · intro a ha
    rw [step_agents_eq] at ha
    exact sensePhase_pids _ _ _ _ hpids a ha

lemma ModelGood_new (w h p npop d : ℕ) (ar : ℕ → ℚ × ℚ × ℚ) (tr : ℕ → ℕ → ℚ)
    (cr : ℕ → PopulationConfig) (pal : Palette) :
    ModelGood w h npop (Model.new w h p npop d ar tr cr pal) := by
  refine ⟨by rw [new_grids_eq]; simp, ?_, ?_⟩
  · intro g hg
    rw [new_grids_eq] at hg
    rcases List.mem_map.mp hg with ⟨k, _, rfl⟩
    exact ⟨rfl, rfl⟩
  · intro a ha
    rw [new_agents_eq] at ha
    rcases List.mem_map.mp ha with ⟨i, hi, rfl⟩
    exact Nat.div_lt_of_lt_mul (List.mem_range.mp hi)

lemma ModelGood_stepN {w h npop : ℕ} (rcos rsin : ℚ → ℚ) (coins : ℕ → ℕ → Bool)
    (n : ℕ) {m : Model} (hg : ModelGood w h npop m) :
    ModelGood w h npop (Model.stepN rcos rsin coins n m) := by
  induction n with
  | zero => exact hg
  | succ n ih => exact ModelGood_step rcos rsin (coins n) ih

lemma agentTick_inRange {w h npop : ℕ} (rcos rsin : ℚ → ℚ) {gs : List Grid}
    (coin : Bool) (a : Agent) (hlen : gs.length = npop)
    (hdims : gridsDims w h gs) (hpid : a.population_id < npop)
    (hw : 0 < w) (hh : 0 < h) :
    agentInRange w h (Model.agentTick rcos rsin gs coin a) := by
  have hlt : a.population_id < gs.length := by rw [hlen]; exact hpid
  obtain ⟨hwid, hhei⟩ := hdims _ (getD_mem_of_lt defaultGrid hlt)
  have h1 : agentInRange (gs.getD a.population_id defaultGrid).width
      (gs.getD a.population_id defaultGrid).height
      (Model.agentTick rcos rsin gs coin a) :=
    rotate_and_move_inRange rcos rsin a _ _ _
      (by rw [hwid]; exact hw) (by rw [hhei]; exact hh)
  rwa [hwid, hhei] at h1

lemma step_allInRange {w h npop : ℕ} {m : Model} (rcos rsin : ℚ → ℚ)
    (coins : ℕ → Bool) (hg : ModelGood w h npop m) (hw : 0 < w) (hh : 0 < h) :
    allInRange w h (Model.step rcos rsin coins m).agents := by
  obtain ⟨hlen, hdims, hpids⟩ := hg
  intro a ha
  rw [step_agents_eq] at ha
  unfold sensePhase at ha
  rcases List.mem_map.mp ha with ⟨q, hq, rfl⟩
  have hmem : q.2 ∈ m.agents := by
    have h2 := List.mem_map_of_mem Prod.snd hq
    rwa [List.enum_map_snd] at h2
  exact agentTick_inRange rcos rsin (coins q.1) q.2
    (by rw [combine_length]; exact hlen) (combine_dims _ hdims) (hpids _ hmem) hw hh

lemma allInRange_new (w h p npop d : ℕ) (ar : ℕ → ℚ × ℚ × ℚ) (tr : ℕ → ℕ → ℚ)
    (cr : ℕ → PopulationConfig) (pal : Palette) (hw : 0 < w) (hh : 0 < h)
    (hr : ∀ i, 0 ≤ (ar i).1 ∧ (ar i).1 < 1 ∧ 0 ≤ (ar i).2.1 ∧ (ar i).2.1 < 1
            ∧ 0 ≤ (ar i).2.2 ∧ (ar i).2.2 < 1) :
    allInRange w h (Model.new w h p npop d ar tr cr pal).agents := by
  intro a ha
  rw [new_agents_eq] at ha
  rcases List.mem_map.mp ha with ⟨i, _, rfl⟩
  obtain ⟨h1, h2, h3, h4, h5, h6⟩ := hr i
  have hwq : (0 : ℚ) < (w : ℚ) := by exact_mod_cast hw
  have hhq : (0 : ℚ) < (h : ℚ) := by exact_mod_cast hh
  refine ⟨mul_nonneg h1 hwq.le, ?_, mul_nonneg h3 hhq.le, ?_,
    mul_nonneg h5 TAU_pos.le, ?_⟩
  · calc (ar i).1 * (w : ℚ) < 1 * (w : ℚ) := mul_lt_mul_of_pos_right h2 hwq
      _ = (w : ℚ) := one_mul _
  · calc (ar i).2.1 * (h : ℚ) < 1 * (h : ℚ) := mul_lt_mul_of_pos_right h4 hhq
      _ = (h : ℚ) := one_mul _
  · calc (ar i).2.2 * TAU < 1 * TAU := mul_lt_mul_of_pos_right h6 TAU_pos
      _ = TAU := one_mul _

/-- The third claim: every agent of a model built by `Model::new` satisfies
the toroidal invariant 0 ≤ x < width, 0 ≤ y < height, 0 ≤ angle < TAU at
construction and after every number of steps (`TAU` here is the `f32`
constant the code wraps by). -/
theorem agents_in_range_after_steps (w h p npop d : ℕ)
    (ar : ℕ → ℚ × ℚ × ℚ) (tr : ℕ → ℕ → ℚ) (cr : ℕ → PopulationConfig)
    (pal : Palette) (rcos rsin : ℚ → ℚ) (coins : ℕ → ℕ → Bool) (n : ℕ)
    (hw : 0 < w) (hh : 0 < h)
    (hr : ∀ i, 0 ≤ (ar i).1 ∧ (ar i).1 < 1 ∧ 0 ≤ (ar i).2.1 ∧ (ar i).2.1 < 1
            ∧ 0 ≤ (ar i).2.2 ∧ (ar i).2.2 < 1) :
    allInRange w h
      (Model.stepN rcos rsin coins n (Model.new w h p npop d ar tr cr pal)).agents := by
  cases n with
  | zero => exact allInRange_new w h p npop d ar tr cr pal hw hh hr
  | succ n =>
      rw [stepN_succ]
      exact step_allInRange rcos rsin (coins n)
        (ModelGood_stepN rcos rsin coins n (ModelGood_new w h p npop d ar tr cr pal))
        hw hh

/-- Witness for the third claim at a concrete instance: a 1 by 1 model with
one agent and one population, after one step. -/
theorem agents_in_range_after_steps_witness :
    0 < 1 ∧ allInRange 1 1
      (Model.stepN (fun _ => 0) (fun _ => 0) (fun _ _ => true) 1
        (Model.new 1 1 1 1 0 (fun _ => (0, 0, 0)) (fun _ _ => 0)
          (fun _ => defaultConfig) ⟨[]⟩)).agents :=
  ⟨by norm_num,
   agents_in_range_after_steps 1 1 1 1 0 (fun _ => (0, 0, 0)) (fun _ _ => 0)
     (fun _ => defaultConfig) ⟨[]⟩ (fun _ => 0) (fun _ => 0) (fun _ _ => true) 1
     (by norm_num) (by norm_num) (fun i => by norm_num)⟩

/-- The tenth claim: after construction and any number of steps, every
population index of every agent is strictly below the grid count (so the
indexing `grids[agent.population_id]` of the sense and deposit phases is in
bounds), and no step ever changes the population index of any agent. -/
theorem population_ids_in_bounds (w h p npop d : ℕ)
    (ar : ℕ → ℚ × ℚ × ℚ) (tr : ℕ → ℕ → ℚ) (cr : ℕ → PopulationConfig)
    (pal : Palette) (rcos rsin : ℚ → ℚ) (coins : ℕ → ℕ → Bool) (n : ℕ) :
    pidsInBounds (Model.stepN rcos rsin coins n (Model.new w h p npop d ar tr cr pal))
    ∧ (Model.stepN rcos rsin coins n
          (Model.new w h p npop d ar tr cr pal)).agents.map Agent.population_id
        = (Model.new w h p npop d ar tr cr pal).agents.map Agent.population_id := by
  constructor
  · obtain ⟨hlen, _, hpids⟩ :=
      ModelGood_stepN rcos rsin coins n (ModelGood_new w h p npop d ar tr cr pal)
    intro a ha
    rw [hlen]
    exact hpids a ha
  · induction n with
    | zero => rfl
    | succ n ih =>
        rw [stepN_succ, step_agents_eq, sensePhase_map_population_id]
        exact ih

/-- The first claim of the steering decision table: `pick_direction`. -/
theorem pick_direction_decision_table (center left right : ℚ) (coin : Bool) :
    (Model.pick_direction center left right coin = -1
      ∨ Model.pick_direction center left right coin = 0
      ∨ Model.pick_direction center left right coin = 1)
    ∧ (center > left ∧ center > right →
        Model.pick_direction center left right coin = 0)
    ∧ (center < left ∧ center < right →
        Model.pick_direction center left right coin = -1
          ∨ Model.pick_direction center left right coin = 1)
    ∧ (¬(center > left ∧ center > right) → ¬(center < left ∧ center < right) →
        left < right → Model.pick_direction center left right coin = 1)
    ∧ (¬(center > left ∧ center > right) → ¬(center < left ∧ center < right) →
        right < left → Model.pick_direction center left right coin = -1)
    ∧ (¬(center > left ∧ center > right) → ¬(center < left ∧ center < right) →
        left = right → Model.pick_direction center left right coin = 0) := by
  refine ⟨?_, ?_, ?_, ?_, ?_, ?_⟩
  · unfold Model.pick_direction
    split_ifs
    · exact Or.inr (Or.inl rfl)
    · exact Or.inl rfl
    · exact Or.inr (Or.inr rfl)
    · exact Or.inr (Or.inr rfl)
    · exact Or.inl rfl
    · exact Or.inr (Or.inl rfl)
  · intro h
    unfold Model.pick_direction
    rw [if_pos h]
  · intro h
    unfold Model.pick_direction
    rw [if_neg (fun hc => (lt_asymm hc.1) h.1), if_pos h]
    cases coin
    · exact Or.inr rfl
    · exact Or.inl rfl
  · intro hb1 hb2 h3
    unfold Model.pick_direction
    rw [if_neg hb1, if_neg hb2, if_pos h3]
  · intro hb1 hb2 h4
    unfold Model.pick_direction
    rw [if_neg hb1, if_neg hb2, if_neg (not_lt.mpr h4.le), if_pos h4]
  · intro hb1 hb2 h5
    unfold Model.pick_direction
    rw [if_neg hb1, if_neg hb2, if_neg (by simp [h5]), if_neg (by simp [h5])]

/-- The second claim: one `Model::step` is exactly combine, then the
sense+steer pass over the agents reading the just-combined buffers, then
the deposit loop over the moved agents, then diffuse+decay, in this order:
the agents after a step are the sense+steer image of the old agents against
the buffers `combine` computed from the pre-step primary fields, and the
grids after a step are the old grids combined, then deposited into by every
moved agent at the index of its own population, then diffused. -/
theorem step_four_phases (rcos rsin : ℚ → ℚ) (coins : ℕ → Bool) (m : Model) :
    (Model.step rcos rsin coins m).agents
        = sensePhase rcos rsin coins (combine m.grids m.attraction_table) m.agents
    ∧ (Model.step rcos rsin coins m).grids
        = diffusePhase m.diffusivity
            (depositPhase
              (sensePhase rcos rsin coins (combine m.grids m.attraction_table) m.agents)
              (combine m.grids m.attraction_table))
    ∧ (Model.step rcos rsin coins m).attraction_table = m.attraction_table :=
  ⟨rfl, rfl, rfl⟩

/-- The fifth claim: in the sense phase of every step, each agent updates by
the direction picked from three probes at `sensor_distance` from its
position, at the angles heading (center), heading minus sensor_angle
(left) and heading plus sensor_angle (right), each offset via `rcos`/`rsin`
of the probe angle and sampled by `get_buf` from the read buffer of the
grid of the own population of the agent; and `get_buf` never reads the
primary field (its value is invariant under any change of `data`). -/
theorem sensing_geometry (rcos rsin : ℚ → ℚ) (coins : ℕ → Bool) (m : Model) :
    ((Model.step rcos rsin coins m).agents
      = m.agents.enum.map (fun p =>
          let a := p.2
          let g := (combine m.grids m.attraction_table).getD a.population_id defaultGrid
          let dist := g.config.sensor_distance
          let trail_c := g.get_buf (a.x + rcos a.angle * dist)
                                   (a.y + rsin a.angle * dist)
          let trail_l := g.get_buf (a.x + rcos (a.angle - g.config.sensor_angle) * dist)
                                   (a.y + rsin (a.angle - g.config.sensor_angle) * dist)
          let trail_r := g.get_buf (a.x + rcos (a.angle + g.config.sensor_angle) * dist)
                                   (a.y + rsin (a.angle + g.config.sensor_angle) * dist)
          a.rotate_and_move rcos rsin
            (Model.pick_direction trail_c trail_l trail_r (coins p.1))
            g.config.rotation_angle g.config.step_distance g.width g.height))
    ∧ (∀ (g : Grid) (d : ℕ → ℚ) (x y : ℚ),
        Grid.get_buf { g with data := d } x y = Grid.get_buf g x y) :=
  ⟨rfl, fun _ _ _ _ => rfl⟩

/-- The ninth claim, evaluated at the failing input: with ./tmp absent and
directory creation failing with OS error 13 (permission denied), the code
discards the error and reports success, so a filesystem error other than
directory-already-exists does not propagate to the caller. -/
theorem ensure_tmp_dir_swallows_errors :
    ensureTmpDir false (fun _ => Except.error 13) = Except.ok () := rfl

lemma sum_mul_ite_of_ge (n i : ℕ) (hi : n ≤ i) (f : ℕ → ℚ) :
    ((List.range n).map (fun j => (if i = j then (1 : ℚ) else 0) * f j)).sum = 0 := by
  apply List.sum_eq_zero
  intro x hx
  rcases List.mem_map.mp hx with ⟨j, hj, rfl⟩
  have hne : i ≠ j := by
    have := List.mem_range.mp hj
    omega
  rw [if_neg hne, zero_mul]

lemma sum_mul_ite_range (n i : ℕ) (hi : i < n) (f : ℕ → ℚ) :
    ((List.range n).map (fun j => (if i = j then (1 : ℚ) else 0) * f j)).sum = f i := by
  induction n with
  | zero => omega
  | succ n ih =>
      rw [List.range_succ, List.map_append, List.sum_append]
      by_cases h : i = n
      · subst h
        rw [sum_mul_ite_of_ge i i le_rfl f]
        simp
      · have hi' : i < n := by omega
        rw [ih hi']
        simp [h]

/-- The fourth claim: `combine` computes, for every population i and every
cell, the read buffer entry as the weighted sum over all populations j of
`attraction_table[i][j] * grids[j].primary_field[cell]`; consequently, with
the identity attraction table every read buffer equals the own primary
field of its population. -/
theorem combine_weighted_sum_and_identity :
    (∀ (grids : List Grid) (table : List (List ℚ)) (i cell : ℕ),
      i < grids.length →
      ((combine grids table).getD i defaultGrid).buf cell
        = ((List.range grids.length).map (fun j =>
            (table.getD i []).getD j 0 * (grids.getD j defaultGrid).data cell)).sum)
    ∧ (∀ (grids : List Grid) (i cell : ℕ), i < grids.length →
      ((combine grids (identityTable grids.length)).getD i defaultGrid).buf cell
        = (grids.getD i defaultGrid).data cell) := by
  have hbuf : ∀ (grids : List Grid) (table : List (List ℚ)) (i cell : ℕ),
      i < grids.length →
      ((combine grids table).getD i defaultGrid).buf cell
        = ((List.range grids.length).map (fun j =>
            (table.getD i []).getD j 0 * (grids.getD j defaultGrid).data cell)).sum := by
    intro grids table i cell hi
    unfold combine
    rw [getD_range_map _ _ _ _ hi]
  refine ⟨hbuf, ?_⟩
  intro grids i cell hi
  rw [hbuf grids (identityTable grids.length) i cell hi]
  have hrow : (identityTable grids.length).getD i []
      = (List.range grids.length).map (fun j => if i = j then (1 : ℚ) else 0) := by
    unfold identityTable
    exact getD_range_map _ _ _ _ hi
  have hmap : ((List.range grids.length).map (fun j =>
      ((identityTable grids.length).getD i []).getD j 0
        * (grids.getD j defaultGrid).data cell))
      = ((List.range grids.length).map (fun j =>
          (if i = j then (1 : ℚ) else 0) * (grids.getD j defaultGrid).data cell)) := by
    apply List.map_congr_left
    intro j hj
    rw [hrow, getD_range_map _ _ _ _ (List.mem_range.mp hj)]
  rw [hmap, sum_mul_ite_range _ _ hi]

/-- Witness for the fourth claim at a concrete instance: one grid, the
identity table of size one, cell 3. -/
theorem combine_weighted_sum_and_identity_witness :
    0 < ([cexGrid] : List Grid).length
    ∧ ((combine [cexGrid] (identityTable ([cexGrid] : List Grid).length)).getD 0
          defaultGrid).buf 3
        = (([cexGrid] : List Grid).getD 0 defaultGrid).data 3 :=
  ⟨by norm_num, combine_weighted_sum_and_identity.2 [cexGrid] 0 3 (by norm_num)⟩

lemma countP_range_div (ppg k : ℕ) (hp : 0 < ppg) (m : ℕ) :
    (List.range m).countP (fun i => i / ppg == k)
      = min m (ppg * (k + 1)) - min m (ppg * k) := by
  induction m with
  | zero => simp
  | succ m ih =>
      rw [List.range_succ, List.countP_append, ih]
      have hcnt : List.countP (fun i => i / ppg == k) [m]
          = if m / ppg = k then 1 else 0 := by
        simp [List.countP_cons]
      rw [hcnt]
      by_cases h : m / ppg = k
      · have hdm := Nat.div_add_mod m ppg
        have h1 : ppg * k ≤ m := by
          calc ppg * k = ppg * (m / ppg) := by rw [h]
            _ ≤ ppg * (m / ppg) + m % ppg := Nat.le_add_right _ _
            _ = m := hdm
        have h2 : m < ppg * (k + 1) := by
          have hmod : m % ppg < ppg := Nat.mod_lt _ hp
          calc m = ppg * (m / ppg) + m % ppg := hdm.symm
            _ < ppg * (m / ppg) + ppg := by omega
            _ = ppg * (m / ppg + 1) := by ring
            _ = ppg * (k + 1) := by rw [h]
        rw [if_pos h]
        revert h1 h2
        generalize ppg * (k + 1) = A
        generalize ppg * k = B
        intro h1 h2
        omega
      · have hnot : ¬(ppg * k ≤ m ∧ m < ppg * (k + 1)) := by
          rintro ⟨h1, h2⟩
          exact h (Nat.div_eq_of_lt_le (by rw [mul_comm]; exact h1)
            (by rw [mul_comm]; exact h2))
        have hmono : ppg * k ≤ ppg * (k + 1) := Nat.mul_le_mul_left _ (by omega)
        rw [if_neg h]
        revert hnot hmono
        generalize ppg * (k + 1) = A
        generalize ppg * k = B
        intro hnot hmono
        omega

lemma countP_range_div_mul (ppg npop k : ℕ) (hk : k < npop) :
    (List.range (ppg * npop)).countP (fun i => i / ppg == k) = ppg := by
  rcases Nat.eq_zero_or_pos ppg with h0 | hp
  · subst h0
    simp
  · rw [countP_range_div ppg k hp]
    have h1 : ppg * (k + 1) ≤ ppg * npop := Nat.mul_le_mul_left _ (by omega)
    have h2 : ppg * k ≤ ppg * npop :=
      le_trans (Nat.mul_le_mul_left _ (by omega)) h1
    rw [min_eq_right h1, min_eq_right h2, Nat.mul_succ, Nat.add_sub_cancel_left]

lemma populationCount_new (w h p npop d : ℕ) (ar : ℕ → ℚ × ℚ × ℚ)
    (tr : ℕ → ℕ → ℚ) (cr : ℕ → PopulationConfig) (pal : Palette) (k : ℕ)
    (hk : k < npop) :
    populationCount (Model.new w h p npop d ar tr cr pal).agents k
      = particlesPerGrid p npop := by
  unfold populationCount
  rw [new_agents_eq, List.countP_map]
  have hco : ((fun a : Agent => a.population_id == k)
      ∘ (fun i => Agent.new w h (i / particlesPerGrid p npop) (ar i)))
      = (fun i => i / particlesPerGrid p npop == k) := rfl
  rw [hco]
  exact countP_range_div_mul _ _ _ hk

lemma new_table_eq (w h p npop d : ℕ) (ar : ℕ → ℚ × ℚ × ℚ) (tr : ℕ → ℕ → ℚ)
    (cr : ℕ → PopulationConfig) (pal : Palette) :
    (Model.new w h p npop d ar tr cr pal).attraction_table
      = (List.range npop).map (fun i => (List.range npop).map (fun j => tr i j)) := rfl

/-- The seventh claim: with at least one population, the realized agent
count is `ceil(n_particles / n_populations) * n_populations` (over the
naturals, `(p + npop - 1) / npop * npop`), every population index below
npop owns exactly `ceil(n_particles / n_populations)` agents, and the grid
list, the attraction table and each of its rows have length npop. -/
theorem new_even_split (w h p npop d : ℕ) (ar : ℕ → ℚ × ℚ × ℚ)
    (tr : ℕ → ℕ → ℚ) (cr : ℕ → PopulationConfig) (pal : Palette)
    (hn : 1 ≤ npop) :
    (Model.new w h p npop d ar tr cr pal).agents.length
        = (p + npop - 1) / npop * npop
    ∧ evenSplit npop ((p + npop - 1) / npop)
        (Model.new w h p npop d ar tr cr pal).agents
    ∧ (Model.new w h p npop d ar tr cr pal).grids.length = npop
    ∧ (Model.new w h p npop d ar tr cr pal).attraction_table.length = npop
    ∧ rowsLen npop (Model.new w h p npop d ar tr cr pal).attraction_table := by
  have hppg : particlesPerGrid p npop = (p + npop - 1) / npop := by
    unfold particlesPerGrid
    rw [if_neg (by omega)]
  refine ⟨?_, ?_, ?_, ?_, ?_⟩
  · rw [new_agents_eq, List.length_map, List.length_range, hppg]
  · intro k hk
    rw [populationCount_new w h p npop d ar tr cr pal k hk, hppg]
  · rw [new_grids_eq]
    simp
  · rw [new_table_eq]
    simp
  · intro row hrow
    rw [new_table_eq] at hrow
    rcases List.mem_map.mp hrow with ⟨i, _, rfl⟩
    simp

/-- Witness for the seventh claim at a concrete instance: 3 particles over
2 populations give 2 agents in population 0. -/
theorem new_even_split_witness :
    1 ≤ 2 ∧ populationCount (Model.new 4 4 3 2 0 (fun _ => (0, 0, 0))
        (fun _ _ => 0) (fun _ => defaultConfig) ⟨[]⟩).agents 0 = (3 + 2 - 1) / 2 :=
  ⟨by norm_num,
   (new_even_split 4 4 3 2 0 (fun _ => (0, 0, 0)) (fun _ _ => 0)
       (fun _ => defaultConfig) ⟨[]⟩ (by norm_num)).2.1 0 (by norm_num)⟩

/-- Counterexample to the sixth claim: `Model::new` called with zero
populations does not abort: the saturating float conversions make the
realized particle count `USIZE_MAX * 0 = 0` and a model with no agents, no
grids and an empty attraction table is constructed and returned. -/
theorem new_zero_populations_cex :
    (Model.new 16 16 5 0 1 (fun _ => (0, 0, 0)) (fun _ _ => 0)
        (fun _ => defaultConfig) ⟨[]⟩).agents = []
    ∧ (Model.new 16 16 5 0 1 (fun _ => (0, 0, 0)) (fun _ _ => 0)
        (fun _ => defaultConfig) ⟨[]⟩).grids = []
    ∧ (Model.new 16 16 5 0 1 (fun _ => (0, 0, 0)) (fun _ _ => 0)
        (fun _ => defaultConfig) ⟨[]⟩).attraction_table = [] := by
  refine ⟨?_, rfl, rfl⟩
  rw [new_agents_eq]
  simp

/-- The sixth claim amended: `Model::new` performs no validation of the
population count; called with zero populations it does not abort but
returns a fully constructed model whose agent, grid and attraction-table
collections are all empty (the particles-per-grid value saturates and the
realized particle count is zero). -/
theorem new_zero_populations_returns_empty (w h p d : ℕ)
    (ar : ℕ → ℚ × ℚ × ℚ) (tr : ℕ → ℕ → ℚ) (cr : ℕ → PopulationConfig)
    (pal : Palette) :
    (Model.new w h p 0 d ar tr cr pal).agents = []
    ∧ (Model.new w h p 0 d ar tr cr pal).grids = []
    ∧ (Model.new w h p 0 d ar tr cr pal).attraction_table = [] := by
  refine ⟨?_, rfl, rfl⟩
  rw [new_agents_eq]
  simp

lemma zip3_cons {α β γ : Type _} (a : α) (as : List α) (b : β) (bs : List β)
    (c : γ) (cs : List γ) :
    zip3 (a :: as) (b :: bs) (c :: cs) = (a, b, c) :: zip3 as bs cs := rfl

lemma zip3_nil {α β γ : Type _} :
    zip3 ([] : List α) ([] : List β) ([] : List γ) = [] := rfl

lemma cexGrid_quantile : cexGrid.quantile (999 / 1000) = 2 := by
  have h5 : List.range (cexGrid.width * cexGrid.height) = [0, 1, 2, 3, 4] := by decide
  unfold Grid.quantile Grid.cells
  rw [h5]
  norm_num [cexGrid, List.insertionSort, List.orderedInsert, Int.floor_eq_iff,
    Int.toNat]

lemma cexGrid_data_four : cexGrid.data 4 = 9 := by norm_num [cexGrid]

lemma savePixel_cex_eval : savePixel gammaCorrect cexImgData 4 0 = (100, 50, 25) := by
  have hmax : maxValues cexImgData.grids = [3] := by
    have h : maxValues cexImgData.grids = [cexGrid.quantile (999 / 1000) * (3 / 2)] := rfl
    rw [h, cexGrid_quantile]
    norm_num
  have hg : cexImgData.grids = [cexGrid] := rfl
  have hc : cexImgData.palette.colors = [(100, 50, 25)] := rfl
  unfold savePixel
  rw [hmax, hg, hc]
  simp only [zip3_cons, zip3_nil, List.foldl_cons, List.foldl_nil]
  have hi : 0 * (([cexGrid] : List Grid).getD 0 defaultGrid).width + 4 = 4 := by
    norm_num
  rw [hi, cexGrid_data_four]
  norm_num [gammaCorrect, clampQ, toU8, min_def, max_def, Int.toNat]

lemma specGrayIntensity_cex_eval :
    specGrayIntensity (cexGrid.data 4) (cexGrid.quantile (999 / 1000)) = 255 := by
  rw [cexGrid_quantile, cexGrid_data_four]
  norm_num [specGrayIntensity, clampQ, toU8, min_def, max_def, Int.toNat]

/-- Counterexample to the eighth claim: rendering the saturated cell of the
concrete single-population ImgData with the pixel computation of
`save_to_image` yields the palette-weighted pixel (100, 50, 25), not the
grayscale pixel the spec formula `clamp(value / quantile(0.999), 0, 1) *
255` prescribes (255 in every channel here): the code divides by
`quantile * 1.5`, gamma corrects and multiplies by the palette colour, and
has no grayscale path. -/
theorem save_to_image_not_grayscale_cex :
    savePixel gammaCorrect cexImgData 4 0
      ≠ (specGrayIntensity (cexGrid.data 4) (cexGrid.quantile (999 / 1000)),
         specGrayIntensity (cexGrid.data 4) (cexGrid.quantile (999 / 1000)),
         specGrayIntensity (cexGrid.data 4) (cexGrid.quantile (999 / 1000))) := by
  rw [savePixel_cex_eval, specGrayIntensity_cex_eval]
  decide

/-- The eighth claim amended: in single-population mode the renderer runs
the same RGB path as in multi-population mode: with one grid and one
palette colour the pixel at (x, y) has channels
`toU8 (clamp (colour_channel * gf t) 0 255)` with
`t = clamp (value / (quantile(0.999) * 1.5)) 0 1` gamma corrected by `gf`,
not the grayscale `clamp(value / quantile(0.999), 0, 1) * 255`. -/
theorem save_to_image_single_population (gf : ℚ → ℚ) (g : Grid)
    (c : ℕ × ℕ × ℕ) (iter : ℤ) (x y : ℕ) :
    savePixel gf { grids := [g], palette := ⟨[c]⟩, iteration := iter } x y
      = (toU8 (clampQ ((c.1 : ℚ) * gf (clampQ (g.data (y * g.width + x)
              / (g.quantile (999 / 1000) * (3 / 2))) 0 1)) 0 255),
         toU8 (clampQ ((c.2.1 : ℚ) * gf (clampQ (g.data (y * g.width + x)
              / (g.quantile (999 / 1000) * (3 / 2))) 0 1)) 0 255),
         toU8 (clampQ ((c.2.2 : ℚ) * gf (clampQ (g.data (y * g.width + x)
              / (g.quantile (999 / 1000) * (3 / 2))) 0 1)) 0 255)) := by
  unfold savePixel maxValues
  simp [zip3_cons, zip3_nil]

end Physarum
